import Mathlib

/-!
Verification of the provider-routing / normalization core of the
llmTranslatorweb repository (a multi-provider AI translation web app).

The development shallowly embeds, in Lean:

* the Router: `performRouting` from `src/components/TranslationInterface.tsx`
  (lines 148-181), which walks `settings.routingSteps.slice(0,
  settings.routingCount)`, skips steps whose provider has no API key,
  invokes the adapter of each eligible step, falls back to the next step on
  HTTP 429/503 congestion (except on the last step of the slice), and
  rethrows every other error;
* the Response Normalizer: `parseAnalysisResponse` and `extractJsonObject`
  from `src/lib/llm/providers.ts`;
* the adapter request builders: `GroqProvider.callApi` /
  `GeminiProvider.callGemini` (and their Cerebras / OpenAI / Grok clones),
  modelled as pure functions from configuration and arguments to the
  outbound HTTP request value they construct (url, headers, query, body
  fields, and the timeout passed to `fetchWithTimeout`);
* `fetchWithTimeout`'s settling behaviour and `LLMProviderBase.translate`.

External effects are modelled as data: the outcome of the adapter call at
step `i` of a routing plan is an oracle `call : Nat → Except ThrownError T`
(each index is invoked at most once, so a function models one execution);
the outcome of the `fetch` race is an input of `fetchWithTimeout`'s model;
`JSON.parse` is an abstract `jsonParse : String → Option α` (`none` models
a thrown `SyntaxError`).
-/

/-- The provider identifiers, `LLMProvider` of `src/store/settingsStore.ts`:
`'groq' | 'gemini' | 'cerebras' | 'openai' | 'grok'`. -/
inductive LLMProvider where
  | groq | gemini | cerebras | openai | grok
deriving DecidableEq, Repr

/-- One slot of the routing plan, as `SettingsPanel` builds it and
`performRouting` reads it: a provider identifier plus a model name. -/
structure RoutingStep where
  provider : LLMProvider
  model : String
deriving DecidableEq, Repr

/-- A thrown JavaScript error as `performRouting`'s `catch` sees it:
`name` (for example "LLMError", "DOMException", "Error"), `message`, and
the optional `status` field (`LLMError.status`, an HTTP status code;
`none` for an error with no such field, such as an `AbortError`).
`performRouting` reads `error.status || (error instanceof LLMError ?
error.status : null)`, which is `status` here in every case. -/
structure ThrownError where
  name : String
  message : String
  status : Option Nat
deriving DecidableEq, Repr

/-- `statusCode === 429 || statusCode === 503`, the congestion test of
`performRouting` (line 174 of `TranslationInterface.tsx`). -/
def congestionStatus (status : Option Nat) : Bool :=
  status == some 429 || status == some 503

/-- Decidable equality for `Except`, so that concrete router executions can
be checked by `decide`. -/
instance {ε α : Type} [DecidableEq ε] [DecidableEq α] : DecidableEq (Except ε α) := fun
  | .ok a, .ok b =>
    if h : a = b then isTrue (by rw [h])
    else isFalse (by intro hh; cases hh; exact h rfl)
  | .ok _, .error _ => isFalse (by intro h; cases h)
  | .error _, .ok _ => isFalse (by intro h; cases h)
  | .error a, .error b =>
    if h : a = b then isTrue (by rw [h])
    else isFalse (by intro hh; cases hh; exact h rfl)

/-- What `performRouting` throws: either an error rethrown from a step's
adapter call (`throw error` / `throw lastError`), or the distinguished
`new Error('有効なAPIキーが設定されていません。設定画面で追加してください。')`
thrown when the loop ends with no `lastError`, i.e. when no step had a
key. -/
inductive RouterThrow where
  | stepError (e : ThrownError)
  | noUsableKey
deriving DecidableEq, Repr

/-- `performRouting`'s successful return value
`{ result, providerUsed: step.provider, modelUsed: step.model }`. -/
structure RouteSuccess (T : Type) where
  result : T
  providerUsed : LLMProvider
  modelUsed : String
deriving DecidableEq, Repr

/-- One observed execution of `performRouting`: its outcome (return value
or thrown error) together with the list, in order, of the absolute step
indices whose adapter was instantiated and invoked (`createLLMProvider`
and `action(provider)` both happen exactly for these indices). -/
structure RouterResult (T : Type) where
  outcome : Except RouterThrow (RouteSuccess T)
  invoked : List Nat
deriving DecidableEq, Repr

/-- `throw lastError || new Error('有効なAPIキーが設定されていません。…')`
(line 181): what the loop throws when it falls off the end of the sliced
plan. -/
def routerFinal (lastError : Option ThrownError) : RouterThrow :=
  match lastError with
  | some e => .stepError e
  | none => .noUsableKey

/-- The `for` loop of `performRouting` (lines 155-180 of
`TranslationInterface.tsx`), walking the remaining suffix of
`stepsToTry`; `i` is the absolute index of the suffix's head in
`stepsToTry`, so the source's continue-condition `i < stepsToTry.length -
1` ("this is not the last step of the slice") is here "the tail behind the
current step is nonempty".

* An empty API key (`if (!providerApiKey) continue`) skips the step:
  nothing is instantiated or invoked and `lastError` is untouched.
* On success the loop returns `{result, providerUsed, modelUsed}` at once.
* On failure with a congestion status (429/503) at a non-final index the
  loop records `lastError` and continues; any other failure, or a
  congestion failure at the final index, is thrown at once.
* When the loop falls off the end it throws `lastError ||` the
  distinguished no-usable-key error. -/
def routerLoop {T : Type} (apiKeys : LLMProvider → String)
    (call : Nat → Except ThrownError T) :
    List RoutingStep → Nat → Option ThrownError → RouterResult T
  | [], _, lastError =>
    { outcome := .error (routerFinal lastError)
      invoked := [] }
  | step :: rest, i, lastError =>
    if apiKeys step.provider = "" then
      routerLoop apiKeys call rest (i + 1) lastError
    else
      match call i with
      | .ok result =>
        { outcome := .ok ⟨result, step.provider, step.model⟩
          invoked := [i] }
      | .error e =>
        if congestionStatus e.status && !rest.isEmpty then
          let r := routerLoop apiKeys call rest (i + 1) (some e)
          { outcome := r.outcome, invoked := i :: r.invoked }
        else
          { outcome := .error (.stepError e), invoked := [i] }

/-- `performRouting` of `TranslationInterface.tsx` (lines 148-181):
`const stepsToTry = settings.routingSteps.slice(0, settings.routingCount)`
followed by the loop (`routerLoop`) started at index 0 with no
`lastError`. -/
def performRouting {T : Type} (apiKeys : LLMProvider → String)
    (call : Nat → Except ThrownError T)
    (routingSteps : List RoutingStep) (routingCount : Nat) : RouterResult T :=
  routerLoop apiKeys call (routingSteps.take routingCount) 0 none

/-- A step index is eligible when it lies inside the sliced plan and its
provider's API key is nonempty — exactly the steps `performRouting` does
not skip. -/
def eligibleStep (apiKeys : LLMProvider → String)
    (steps : List RoutingStep) (j : Nat) : Bool :=
  match steps[j]? with
  | some s => apiKeys s.provider != ""
  | none => false

section RouterSanity

/-- Two providers with keys, used by the sanity checks below. -/
def twoKeys : LLMProvider → String
  | .groq => "gk"
  | .gemini => "mk"
  | _ => ""

example :
    performRouting twoKeys (fun _ => .ok 7)
      [⟨.groq, "m0"⟩, ⟨.gemini, "m1"⟩] 2 =
      { outcome := .ok ⟨7, .groq, "m0"⟩, invoked := [0] } := by decide

example :
    performRouting twoKeys
      (fun i => if i = 0 then .error ⟨"LLMError", "rate", some 429⟩ else .ok 7)
      [⟨.groq, "m0"⟩, ⟨.gemini, "m1"⟩] 2 =
      { outcome := .ok ⟨7, .gemini, "m1"⟩, invoked := [0, 1] } := by decide

example :
    performRouting twoKeys
      (fun _ => (.error ⟨"LLMError", "auth", some 401⟩ : Except ThrownError Nat))
      [⟨.groq, "m0"⟩, ⟨.gemini, "m1"⟩] 2 =
      { outcome := .error (.stepError ⟨"LLMError", "auth", some 401⟩),
        invoked := [0] } := by decide

example :
    performRouting (fun _ => "") (fun _ => (.ok 7 : Except ThrownError Nat))
      [⟨.groq, "m0"⟩, ⟨.gemini, "m1"⟩] 2 =
      { outcome := .error .noUsableKey, invoked := [] } := by decide

/- Congestion at the last step of the slice is thrown, not swallowed. -/
example :
    performRouting twoKeys
      (fun _ => (.error ⟨"LLMError", "rate", some 429⟩ : Except ThrownError Nat))
      [⟨.groq, "m0"⟩, ⟨.gemini, "m1"⟩] 2 =
      { outcome := .error (.stepError ⟨"LLMError", "rate", some 429⟩),
        invoked := [0, 1] } := by decide

/- Depth 1 never touches step 1. -/
example :
    performRouting twoKeys
      (fun _ => (.error ⟨"LLMError", "rate", some 429⟩ : Except ThrownError Nat))
      [⟨.groq, "m0"⟩, ⟨.gemini, "m1"⟩] 1 =
      { outcome := .error (.stepError ⟨"LLMError", "rate", some 429⟩),
        invoked := [0] } := by decide

end RouterSanity

section RouterLemmas

variable {T : Type} {apiKeys : LLMProvider → String}
  {call : Nat → Except ThrownError T}

/-- Unfolding `routerLoop` past the end of the walked suffix. -/
theorem routerLoop_nil (i : Nat) (last : Option ThrownError) :
    routerLoop apiKeys call [] i last =
      { outcome := .error (routerFinal last), invoked := [] } := rfl

/-- Unfolding `routerLoop` at an empty-key step: `continue` without
instantiating anything. -/
theorem routerLoop_cons_skip {step : RoutingStep} (rest : List RoutingStep)
    (i : Nat) (last : Option ThrownError) (hk : apiKeys step.provider = "") :
    routerLoop apiKeys call (step :: rest) i last =
      routerLoop apiKeys call rest (i + 1) last := by
  rw [routerLoop, if_pos hk]

/-- Unfolding `routerLoop` at an eligible step whose call succeeds. -/
theorem routerLoop_cons_ok {step : RoutingStep} (rest : List RoutingStep)
    (i : Nat) (last : Option ThrownError) {v : T}
    (hk : apiKeys step.provider ≠ "") (hc : call i = .ok v) :
    routerLoop apiKeys call (step :: rest) i last =
      { outcome := .ok ⟨v, step.provider, step.model⟩, invoked := [i] } := by
  simp only [routerLoop, if_neg hk, hc]

/-- Unfolding `routerLoop` at an eligible step whose call fails with
congestion while later steps remain. -/
theorem routerLoop_cons_continue {step : RoutingStep} (rest : List RoutingStep)
    (i : Nat) (last : Option ThrownError) {e : ThrownError}
    (hk : apiKeys step.provider ≠ "") (hc : call i = .error e)
    (hb : (congestionStatus e.status && !rest.isEmpty) = true) :
    routerLoop apiKeys call (step :: rest) i last =
      { outcome := (routerLoop apiKeys call rest (i + 1) (some e)).outcome,
        invoked := i :: (routerLoop apiKeys call rest (i + 1) (some e)).invoked } := by
  simp only [routerLoop, if_neg hk, hc, if_pos hb]

/-- Unfolding `routerLoop` at an eligible step whose failure is thrown at
once: a non-congestion error, or the last step of the slice. -/
theorem routerLoop_cons_stop {step : RoutingStep} (rest : List RoutingStep)
    (i : Nat) (last : Option ThrownError) {e : ThrownError}
    (hk : apiKeys step.provider ≠ "") (hc : call i = .error e)
    (hb : ¬ ((congestionStatus e.status && !rest.isEmpty) = true)) :
    routerLoop apiKeys call (step :: rest) i last =
      { outcome := .error (.stepError e), invoked := [i] } := by
  simp only [routerLoop, if_neg hk, hc, if_neg hb]

/-- Every invoked index lies between the loop's start index and the end of
the walked suffix. -/
theorem routerLoop_invoked_bounds :
    ∀ (l : List RoutingStep) (i : Nat) (lastError : Option ThrownError)
      (j : Nat), j ∈ (routerLoop apiKeys call l i lastError).invoked →
      i ≤ j ∧ j < i + l.length := by
  intro l
  induction l with
  | nil => intro i last j h; rw [routerLoop_nil] at h; simp at h
  | cons step rest ih =>
    intro i last j h
    by_cases hk : apiKeys step.provider = ""
    · rw [routerLoop_cons_skip rest i last hk] at h
      have := ih (i + 1) last j h
      constructor
      · omega
      · simp only [List.length_cons]; omega
    · cases hc : call i with
      | ok v =>
        rw [routerLoop_cons_ok rest i last hk hc] at h
        simp only [List.mem_singleton] at h
        subst h
        simp only [List.length_cons]
        omega
      | error e =>
        by_cases hb : (congestionStatus e.status && !rest.isEmpty) = true
        · rw [routerLoop_cons_continue rest i last hk hc hb] at h
          simp only [List.mem_cons] at h
          rcases h with h | h
          · subst h; simp only [List.length_cons]; omega
          · have := ih (i + 1) (some e) j h
            constructor
            · omega
            · simp only [List.length_cons]; omega
        · rw [routerLoop_cons_stop rest i last hk hc hb] at h
          simp only [List.mem_singleton] at h
          subst h
          simp only [List.length_cons]
          omega

/-- Every invoked index is an eligible one: the walked suffix holds a step
there and that step's provider has a nonempty key. (An empty-key step is
skipped without being instantiated or invoked.) -/
theorem routerLoop_invoked_eligible :
    ∀ (l : List RoutingStep) (i : Nat) (lastError : Option ThrownError)
      (j : Nat), j ∈ (routerLoop apiKeys call l i lastError).invoked →
      ∃ s, l[j - i]? = some s ∧ apiKeys s.provider ≠ "" := by
  intro l
  induction l with
  | nil => intro i last j h; rw [routerLoop_nil] at h; simp at h
  | cons step rest ih =>
    intro i last j h
    by_cases hk : apiKeys step.provider = ""
    · rw [routerLoop_cons_skip rest i last hk] at h
      have hb := routerLoop_invoked_bounds _ _ _ _ h
      obtain ⟨s, hs, hkey⟩ := ih (i + 1) last j h
      refine ⟨s, ?_, hkey⟩
      have hji : j - i = (j - (i + 1)) + 1 := by omega
      rw [hji, List.getElem?_cons_succ]
      exact hs
    · cases hc : call i with
      | ok v =>
        rw [routerLoop_cons_ok rest i last hk hc] at h
        simp only [List.mem_singleton] at h
        subst h
        exact ⟨step, by simp, hk⟩
      | error e =>
        by_cases hb : (congestionStatus e.status && !rest.isEmpty) = true
        · rw [routerLoop_cons_continue rest i last hk hc hb] at h
          simp only [List.mem_cons] at h
          rcases h with h | h
          · subst h; exact ⟨step, by simp, hk⟩
          · have hb2 := routerLoop_invoked_bounds _ _ _ _ h
            obtain ⟨s, hs, hkey⟩ := ih (i + 1) (some e) j h
            refine ⟨s, ?_, hkey⟩
            have hji : j - i = (j - (i + 1)) + 1 := by omega
            rw [hji, List.getElem?_cons_succ]
            exact hs
        · rw [routerLoop_cons_stop rest i last hk hc hb] at h
          simp only [List.mem_singleton] at h
          subst h
          exact ⟨step, by simp, hk⟩

/-- When every step of the walked suffix has an empty key, the loop skips
them all and throws `lastError ||` the distinguished no-usable-key error,
invoking nothing. -/
theorem routerLoop_all_empty :
    ∀ (l : List RoutingStep) (i : Nat) (lastError : Option ThrownError),
      (∀ s ∈ l, apiKeys s.provider = "") →
      routerLoop apiKeys call l i lastError =
        { outcome := .error (routerFinal lastError), invoked := [] } := by
  intro l
  induction l with
  | nil => intro i last _; exact routerLoop_nil i last
  | cons step rest ih =>
    intro i last hall
    rw [routerLoop_cons_skip rest i last (hall step (by simp))]
    exact ih (i + 1) last fun s hs => hall s (by simp [hs])

/-- The first eligible index at or after the loop's start index is always
invoked. -/
theorem routerLoop_first_eligible_invoked :
    ∀ (l : List RoutingStep) (i : Nat) (lastError : Option ThrownError)
      (j : Nat) (s : RoutingStep), l[j - i]? = some s →
      apiKeys s.provider ≠ "" → i ≤ j →
      (∀ k, i ≤ k → k < j → ∀ s', l[k - i]? = some s' →
        apiKeys s'.provider = "") →
      j ∈ (routerLoop apiKeys call l i lastError).invoked := by
  intro l
  induction l with
  | nil => intro i last j s hs _ _ _; simp at hs
  | cons step rest ih =>
    intro i last j s hs hkey hij hbefore
    by_cases hji : j = i
    · subst hji
      simp only [Nat.sub_self, List.getElem?_cons_zero, Option.some.injEq] at hs
      subst hs
      cases hc : call j with
      | ok v => rw [routerLoop_cons_ok rest j last hkey hc]; simp
      | error e =>
        by_cases hb : (congestionStatus e.status && !rest.isEmpty) = true
        · rw [routerLoop_cons_continue rest j last hkey hc hb]; simp
        · rw [routerLoop_cons_stop rest j last hkey hc hb]; simp
    · have hlt : i < j := by omega
      have hkstep : apiKeys step.provider = "" := by
        refine hbefore i le_rfl hlt step ?_
        simp
      rw [routerLoop_cons_skip rest i last hkstep]
      refine ih (i + 1) last j s ?_ hkey (by omega) ?_
      · have hd : j - i = (j - (i + 1)) + 1 := by omega
        rw [hd, List.getElem?_cons_succ] at hs
        exact hs
      · intro k hk1 hk2 s2 hs2
        refine hbefore k (by omega) hk2 s2 ?_
        have hd : k - i = (k - (i + 1)) + 1 := by omega
        rw [hd, List.getElem?_cons_succ]
        exact hs2

/-- When the adapter call at an invoked index succeeds, the loop returns
that step's `(result, providerUsed, modelUsed)` and invokes no later
index. -/
theorem routerLoop_success_at :
    ∀ (l : List RoutingStep) (i : Nat) (lastError : Option ThrownError)
      (j : Nat) (v : T) (s : RoutingStep),
      j ∈ (routerLoop apiKeys call l i lastError).invoked →
      call j = .ok v → l[j - i]? = some s →
      (routerLoop apiKeys call l i lastError).outcome =
        .ok ⟨v, s.provider, s.model⟩ ∧
      ∀ k ∈ (routerLoop apiKeys call l i lastError).invoked, k ≤ j := by
  intro l
  induction l with
  | nil => intro i last j v s h; rw [routerLoop_nil] at h; simp at h
  | cons step rest ih =>
    intro i last j v s h hcall hs
    by_cases hk : apiKeys step.provider = ""
    · rw [routerLoop_cons_skip rest i last hk] at h ⊢
      have hb := routerLoop_invoked_bounds _ _ _ _ h
      have hd : j - i = (j - (i + 1)) + 1 := by omega
      rw [hd, List.getElem?_cons_succ] at hs
      exact ih (i + 1) last j v s h hcall hs
    · cases hc : call i with
      | ok w =>
        rw [routerLoop_cons_ok rest i last hk hc] at h ⊢
        simp only [List.mem_singleton] at h
        subst h
        rw [hcall] at hc
        cases hc
        simp only [Nat.sub_self, List.getElem?_cons_zero, Option.some.injEq] at hs
        subst hs
        exact ⟨rfl, by simp⟩
      | error e =>
        by_cases hb : (congestionStatus e.status && !rest.isEmpty) = true
        · rw [routerLoop_cons_continue rest i last hk hc hb] at h ⊢
          simp only [List.mem_cons] at h
          rcases h with h | h
          · subst h; rw [hcall] at hc; cases hc
          · have hb2 := routerLoop_invoked_bounds _ _ _ _ h
            have hd : j - i = (j - (i + 1)) + 1 := by omega
            rw [hd, List.getElem?_cons_succ] at hs
            obtain ⟨hout, hinv⟩ := ih (i + 1) (some e) j v s h hcall hs
            refine ⟨hout, ?_⟩
            intro k hkmem
            simp only [List.mem_cons] at hkmem
            rcases hkmem with hkmem | hkmem
            · omega
            · exact hinv k hkmem
        · rw [routerLoop_cons_stop rest i last hk hc hb] at h
          simp only [List.mem_singleton] at h
          subst h
          rw [hcall] at hc
          cases hc

/-- When the adapter call at an invoked index fails and the loop does not
continue past it — a non-congestion status, or the index is the last of
the walked suffix — the loop throws that very error and invokes no later
index. -/
theorem routerLoop_error_stop :
    ∀ (l : List RoutingStep) (i : Nat) (lastError : Option ThrownError)
      (j : Nat) (e : ThrownError),
      j ∈ (routerLoop apiKeys call l i lastError).invoked →
      call j = .error e →
      (congestionStatus e.status = false ∨ j + 1 = i + l.length) →
      (routerLoop apiKeys call l i lastError).outcome =
        .error (.stepError e) ∧
      ∀ k ∈ (routerLoop apiKeys call l i lastError).invoked, k ≤ j := by
  intro l
  induction l with
  | nil => intro i last j e h; rw [routerLoop_nil] at h; simp at h
  | cons step rest ih =>
    intro i last j e h hcall hstop
    by_cases hk : apiKeys step.provider = ""
    · rw [routerLoop_cons_skip rest i last hk] at h ⊢
      have hb := routerLoop_invoked_bounds _ _ _ _ h
      refine ih (i + 1) last j e h hcall ?_
      rcases hstop with hstop | hstop
      · exact Or.inl hstop
      · right; simp only [List.length_cons] at hstop; omega
    · cases hc : call i with
      | ok w =>
        rw [routerLoop_cons_ok rest i last hk hc] at h
        simp only [List.mem_singleton] at h
        subst h
        rw [hcall] at hc
        cases hc
      | error e2 =>
        by_cases hb : (congestionStatus e2.status && !rest.isEmpty) = true
        · rw [routerLoop_cons_continue rest i last hk hc hb] at h ⊢
          simp only [List.mem_cons] at h
          rcases h with h | h
          · subst h
            rw [hcall] at hc
            cases hc
            simp only [Bool.and_eq_true, Bool.not_eq_true',
              List.isEmpty_eq_false] at hb
            rcases hstop with hstop | hstop
            · rw [hstop] at hb
              exact absurd hb.1 (by simp)
            · exfalso
              have hne : rest ≠ [] := hb.2
              have hlen : rest.length ≠ 0 :=
                fun hz => hne (List.length_eq_zero.mp hz)
              simp only [List.length_cons] at hstop
              omega
          · have hb2 := routerLoop_invoked_bounds _ _ _ _ h
            have hstop2 : congestionStatus e.status = false ∨
                j + 1 = (i + 1) + rest.length := by
              rcases hstop with hstop | hstop
              · exact Or.inl hstop
              · right; simp only [List.length_cons] at hstop; omega
            obtain ⟨hout, hinv⟩ := ih (i + 1) (some e2) j e h hcall hstop2
            refine ⟨hout, ?_⟩
            intro k hkmem
            simp only [List.mem_cons] at hkmem
            rcases hkmem with hkmem | hkmem
            · omega
            · exact hinv k hkmem
        · rw [routerLoop_cons_stop rest i last hk hc hb] at h ⊢
          simp only [List.mem_singleton] at h
          subst h
          rw [hcall] at hc
          cases hc
          exact ⟨rfl, by simp⟩

/-- When the adapter call at an invoked index fails with congestion and
the index is not the last of the walked suffix, the loop's outcome is the
continuation's outcome from the next index on (with the congestion error
as `lastError`), the continuation's invocations all happen, and every
invocation is either at or before the failing index or one of the
continuation's. -/
theorem routerLoop_error_continue :
    ∀ (l : List RoutingStep) (i : Nat) (lastError : Option ThrownError)
      (j : Nat) (e : ThrownError),
      j ∈ (routerLoop apiKeys call l i lastError).invoked →
      call j = .error e →
      congestionStatus e.status = true → j + 1 < i + l.length →
      (routerLoop apiKeys call l i lastError).outcome =
        (routerLoop apiKeys call (l.drop (j + 1 - i)) (j + 1) (some e)).outcome ∧
      (∀ k, k ∈ (routerLoop apiKeys call (l.drop (j + 1 - i)) (j + 1)
          (some e)).invoked →
        k ∈ (routerLoop apiKeys call l i lastError).invoked) ∧
      (∀ k ∈ (routerLoop apiKeys call l i lastError).invoked,
        k ≤ j ∨ k ∈ (routerLoop apiKeys call (l.drop (j + 1 - i)) (j + 1)
          (some e)).invoked) := by
  intro l
  induction l with
  | nil => intro i last j e h; rw [routerLoop_nil] at h; simp at h
  | cons step rest ih =>
    intro i last j e h hcall hcong hlast
    by_cases hk : apiKeys step.provider = ""
    · have hbd := routerLoop_invoked_bounds _ _ _ _
        (by rw [routerLoop_cons_skip rest i last hk] at h; exact h)
      rw [routerLoop_cons_skip rest i last hk] at h ⊢
      have hd : j + 1 - i = (j + 1 - (i + 1)) + 1 := by omega
      rw [hd, List.drop_succ_cons]
      have hlast2 : j + 1 < (i + 1) + rest.length := by
        simp only [List.length_cons] at hlast
        omega
      exact ih (i + 1) last j e h hcall hcong hlast2
    · cases hc : call i with
      | ok w =>
        rw [routerLoop_cons_ok rest i last hk hc] at h
        simp only [List.mem_singleton] at h
        subst h
        rw [hcall] at hc
        cases hc
      | error e2 =>
        by_cases hb : (congestionStatus e2.status && !rest.isEmpty) = true
        · rw [routerLoop_cons_continue rest i last hk hc hb] at h ⊢
          simp only [List.mem_cons] at h
          rcases h with h | h
          · subst h
            rw [hcall] at hc
            cases hc
            have hd : j + 1 - j = 1 := by omega
            rw [hd, List.drop_one, List.tail_cons]
            refine ⟨rfl, ?_, ?_⟩
            · intro k hk2
              simp [hk2]
            · intro k hkmem
              simp only [List.mem_cons] at hkmem
              rcases hkmem with hkmem | hkmem
              · exact Or.inl (by omega)
              · exact Or.inr hkmem
          · have hb2 := routerLoop_invoked_bounds _ _ _ _ h
            have hd : j + 1 - i = (j + 1 - (i + 1)) + 1 := by omega
            rw [hd, List.drop_succ_cons]
            have hlast2 : j + 1 < (i + 1) + rest.length := by
              simp only [List.length_cons] at hlast
              omega
            obtain ⟨hout, hsub, hsplit⟩ :=
              ih (i + 1) (some e2) j e h hcall hcong hlast2
            refine ⟨hout, ?_, ?_⟩
            · intro k hk2
              simp only [List.mem_cons]
              exact Or.inr (hsub k hk2)
            · intro k hkmem
              simp only [List.mem_cons] at hkmem
              rcases hkmem with hkmem | hkmem
              · exact Or.inl (by omega)
              · exact hsplit k hkmem
        · rw [routerLoop_cons_stop rest i last hk hc hb] at h
          simp only [List.mem_singleton] at h
          subst h
          rw [hcall] at hc
          cases hc
          exfalso
          simp only [Bool.and_eq_true, Bool.not_eq_true',
            List.isEmpty_eq_false] at hb
          push_neg at hb
          have hne : rest ≠ [] := by
            intro hz
            simp only [List.length_cons, hz, List.length_nil] at hlast
            omega
          exact hne (hb hcong)

end RouterLemmas

section RouterClaims

/-- An eligible index gives a step with a nonempty key, and conversely. -/
theorem eligibleStep_false_of_getElem {apiKeys : LLMProvider → String}
    {steps : List RoutingStep} {k : Nat} {s : RoutingStep}
    (hs : steps[k]? = some s)
    (h : eligibleStep apiKeys steps k = false) : apiKeys s.provider = "" := by
  unfold eligibleStep at h
  rw [hs] at h
  simpa using h

/-- C1. For every routing-plan execution, a congestion failure (HTTP 429 or
503) at an invoked step that is not the last eligible one makes the Router
continue: the next eligible step is invoked too; whereas a non-congestion
failure (for example a 401, or an abort with no status code), or a
congestion failure after which no eligible step remains, is thrown
immediately as that very error and no later step is ever invoked. -/
theorem router_congestion_fallback_other_errors_thrown {T : Type}
    (apiKeys : LLMProvider → String) (call : Nat → Except ThrownError T)
    (routingSteps : List RoutingStep) (routingCount : Nat)
    (i : Nat) (e : ThrownError)
    (hmem : i ∈ (performRouting apiKeys call routingSteps routingCount).invoked)
    (hcall : call i = .error e) :
    (congestionStatus e.status = true →
      ∀ j s, (routingSteps.take routingCount)[j]? = some s →
        apiKeys s.provider ≠ "" → i < j →
        (∀ k, i < k → k < j →
          eligibleStep apiKeys (routingSteps.take routingCount) k = false) →
        j ∈ (performRouting apiKeys call routingSteps routingCount).invoked) ∧
    ((congestionStatus e.status = false ∨
        (∀ k, i < k →
          eligibleStep apiKeys (routingSteps.take routingCount) k = false)) →
      (performRouting apiKeys call routingSteps routingCount).outcome =
        .error (.stepError e) ∧
      ∀ k ∈ (performRouting apiKeys call routingSteps routingCount).invoked,
        k ≤ i) := by
  unfold performRouting at hmem ⊢
  set L := routingSteps.take routingCount with hL
  constructor
  · intro hcong j s hj hkey hij hbetween
    have hjlen : j < L.length := (List.getElem?_eq_some.mp hj).1
    have hlast : i + 1 < 0 + L.length := by omega
    obtain ⟨hout, hsub, hsplit⟩ :=
      routerLoop_error_continue L 0 none i e hmem hcall hcong hlast
    refine hsub j ?_
    refine routerLoop_first_eligible_invoked (L.drop (i + 1 - 0)) (i + 1)
      (some e) j s ?_ hkey (by omega) ?_
    · rw [List.getElem?_drop]
      have : i + 1 - 0 + (j - (i + 1)) = j := by omega
      rw [this]
      exact hj
    · intro k hk1 hk2 s2 hs2
      rw [List.getElem?_drop] at hs2
      have hidx : i + 1 - 0 + (k - (i + 1)) = k := by omega
      rw [hidx] at hs2
      exact eligibleStep_false_of_getElem hs2 (hbetween k (by omega) hk2)
  · intro hdisj
    have hbd := routerLoop_invoked_bounds L 0 none i hmem
    rcases hdisj with hfalse | hall
    · exact routerLoop_error_stop L 0 none i e hmem hcall (Or.inl hfalse)
    · cases hcg : congestionStatus e.status with
      | false => exact routerLoop_error_stop L 0 none i e hmem hcall (Or.inl hcg)
      | true =>
        by_cases hlen : i + 1 = L.length
        · exact routerLoop_error_stop L 0 none i e hmem hcall
            (Or.inr (by omega))
        · have hlast : i + 1 < 0 + L.length := by omega
          obtain ⟨hout, hsub, hsplit⟩ :=
            routerLoop_error_continue L 0 none i e hmem hcall hcg hlast
          have hempty : ∀ s ∈ L.drop (i + 1 - 0), apiKeys s.provider = "" := by
            intro s hs
            obtain ⟨m, hm⟩ := List.mem_iff_getElem?.mp hs
            rw [List.getElem?_drop] at hm
            exact eligibleStep_false_of_getElem hm
              (hall (i + 1 - 0 + m) (by omega))
          have hcont := @routerLoop_all_empty T apiKeys call
            (L.drop (i + 1 - 0)) (i + 1) (some e) hempty
          constructor
          · rw [hout, hcont]
            rfl
          · intro k hk
            rcases hsplit k hk with hk2 | hk2
            · exact hk2
            · rw [hcont] at hk2
              simp at hk2

/-- The adapter-call oracle of the witness scenarios: step 0 rate-limited
with HTTP 429, step 1 succeeding. -/
def callCongestionThenOk : Nat → Except ThrownError Nat := fun i =>
  if i = 0 then .error ⟨"LLMError", "Groq API Error: 429", some 429⟩
  else .ok 7

theorem router_congestion_fallback_other_errors_thrown_witness :
    1 ∈ (performRouting twoKeys callCongestionThenOk
      [⟨.groq, "m0"⟩, ⟨.gemini, "m1"⟩] 2).invoked := by
  refine (router_congestion_fallback_other_errors_thrown twoKeys
    callCongestionThenOk [⟨.groq, "m0"⟩, ⟨.gemini, "m1"⟩] 2 0
    ⟨"LLMError", "Groq API Error: 429", some 429⟩ (by decide) (by decide)).1
    (by decide) 1 ⟨.gemini, "m1"⟩ (by decide) (by decide) (by decide) ?_
  intro k hk1 hk2
  omega

/-- C2. When the adapter call at an invoked step of a routing-plan
execution succeeds, the Router returns that step's result at once, with
`providerUsed` the step's provider and `modelUsed` the step's model, and
invokes no later step. (At most one invoked call can succeed — the Router
returns at the first success.) -/
theorem router_first_success_returns {T : Type}
    (apiKeys : LLMProvider → String) (call : Nat → Except ThrownError T)
    (routingSteps : List RoutingStep) (routingCount : Nat)
    (j : Nat) (v : T) (s : RoutingStep)
    (hmem : j ∈ (performRouting apiKeys call routingSteps routingCount).invoked)
    (hcall : call j = .ok v)
    (hs : (routingSteps.take routingCount)[j]? = some s) :
    (performRouting apiKeys call routingSteps routingCount).outcome =
      .ok ⟨v, s.provider, s.model⟩ ∧
    ∀ k ∈ (performRouting apiKeys call routingSteps routingCount).invoked,
      k ≤ j := by
  refine routerLoop_success_at (routingSteps.take routingCount) 0 none
    j v s hmem hcall ?_
  simpa using hs

theorem router_first_success_returns_witness :
    (performRouting twoKeys callCongestionThenOk
      [⟨.groq, "m0"⟩, ⟨.gemini, "m1"⟩] 2).outcome =
      .ok ⟨7, .gemini, "m1"⟩ ∧
    ∀ k ∈ (performRouting twoKeys callCongestionThenOk
      [⟨.groq, "m0"⟩, ⟨.gemini, "m1"⟩] 2).invoked, k ≤ 1 :=
  router_first_success_returns twoKeys callCongestionThenOk
    [⟨.groq, "m0"⟩, ⟨.gemini, "m1"⟩] 2 1 7 ⟨.gemini, "m1"⟩
    (by decide) (by decide) (by decide)

/-- C3. A step whose provider's API key is empty is never invoked (its
adapter is never instantiated), and when every step inside the routing
depth has an empty key the Router throws the distinguished no-usable-key
error — not a vendor-shaped step error — having invoked nothing. -/
theorem router_empty_key_skipped_no_key_distinguished {T : Type}
    (apiKeys : LLMProvider → String) (call : Nat → Except ThrownError T)
    (routingSteps : List RoutingStep) (routingCount : Nat) :
    (∀ j, eligibleStep apiKeys (routingSteps.take routingCount) j = false →
      j ∉ (performRouting apiKeys call routingSteps routingCount).invoked) ∧
    ((∀ s ∈ routingSteps.take routingCount, apiKeys s.provider = "") →
      performRouting apiKeys call routingSteps routingCount =
        { outcome := .error .noUsableKey, invoked := [] }) := by
  constructor
  · intro j hinelig hmem
    obtain ⟨s, hs, hkey⟩ := routerLoop_invoked_eligible
      (routingSteps.take routingCount) 0 none j hmem
    rw [Nat.sub_zero] at hs
    exact hkey (eligibleStep_false_of_getElem hs hinelig)
  · intro hall
    exact routerLoop_all_empty (routingSteps.take routingCount) 0 none hall

/-- C4. The Router never invokes a step at an index at or beyond the
routing depth, nor beyond the plan's length: steps past the depth are
inert configuration. -/
theorem router_depth_clamp {T : Type}
    (apiKeys : LLMProvider → String) (call : Nat → Except ThrownError T)
    (routingSteps : List RoutingStep) (routingCount : Nat) (j : Nat)
    (hmem : j ∈ (performRouting apiKeys call routingSteps routingCount).invoked) :
    j < routingCount ∧ j < routingSteps.length := by
  have h := routerLoop_invoked_bounds (routingSteps.take routingCount) 0 none
    j hmem
  rw [List.length_take] at h
  omega

/-- A five-step plan with routing depth 2 and both tried steps congested:
depth-clamp instantiated where step 1 is indeed invoked. -/
theorem router_depth_clamp_witness : 1 < 2 ∧ 1 < 5 :=
  router_depth_clamp twoKeys
    (fun _ => (.error ⟨"LLMError", "rate", some 429⟩ : Except ThrownError Nat))
    [⟨.groq, "m0"⟩, ⟨.gemini, "m1"⟩, ⟨.groq, "m2"⟩, ⟨.gemini, "m3"⟩,
      ⟨.groq, "m4"⟩] 2 1 (by decide)

end RouterClaims

section Normalizer

/-!
The Response Normalizer of `src/lib/llm/providers.ts`:
`extractJsonObject` (lines 722-727) and
`LLMProviderBase.parseAnalysisResponse` (lines 919-933).

`JSON.parse` is a vendor-independent browser builtin, so it is modelled as
an abstract `jsonParse : String → Option α` — `none` models the thrown
`SyntaxError` the source catches.  String surgery is done on the character
list of the payload.  Whitespace (`\s` in the source's regexes, and
`String.prototype.trim`) is modelled as `Char.isWhitespace` (space, tab,
CR, LF); the JavaScript classes also hold rarer Unicode space characters,
on which no claim depends.
-/

/-- `content.trim()`: remove whitespace from both ends. -/
def trimList (cs : List Char) : List Char :=
  ((cs.dropWhile Char.isWhitespace).reverse.dropWhile Char.isWhitespace).reverse

/-- `cleaned.replace(/^```(?:json)?\s*\n?/, '')`, applied (in
`parseAnalysisResponse`) only when the trimmed content starts with
three backticks, so the anchored pattern always matches: drop the three
backticks, then the optional literal tag `json`, then the greedy run of
whitespace (which also swallows the `\n?`). -/
def stripLeadingFence (cs : List Char) : List Char :=
  let rest := cs.drop 3
  let rest2 := if ['j', 's', 'o', 'n'].isPrefixOf rest then rest.drop 4 else rest
  rest2.dropWhile Char.isWhitespace

/-- Whether `/\n?```\s*$/` matches at this position: an optional newline,
three backticks, and nothing but whitespace up to the end. -/
def fenceEndMatch : List Char → Bool
  | '\n' :: '`' :: '`' :: '`' :: rest => rest.all fun c => c.isWhitespace
  | '`' :: '`' :: '`' :: rest => rest.all fun c => c.isWhitespace
  | _ => false

/-- `cleaned.replace(/\n?```\s*$/, '')`: truncate at the leftmost position
where the end-anchored pattern matches (the replacement is empty), or
leave the text unchanged when it matches nowhere. -/
def stripTrailingFence : List Char → List Char
  | [] => []
  | c :: rest =>
    if fenceEndMatch (c :: rest) then [] else c :: stripTrailingFence rest

/-- Character-level core of `extractJsonObject`:
`text.slice(text.indexOf('\x7b'), text.lastIndexOf('\x7d') + 1)`, or
`null` when either bracket is missing.  As with JavaScript's `slice`, the
result is empty when the last closing bracket precedes the first opening
one. -/
def extractJsonObjectChars (cs : List Char) : Option (List Char) :=
  match cs.findIdx? (· == '{'), cs.reverse.findIdx? (· == '}') with
  | some startIndex, some revIdx =>
    let lastIndex := cs.length - 1 - revIdx
    some ((cs.drop startIndex).take (lastIndex + 1 - startIndex))
  | _, _ => none

/-- `extractJsonObject` (providers.ts lines 722-727). -/
def extractJsonObject (text : String) : Option String :=
  (extractJsonObjectChars text.toList).map String.mk

/-- The first half of `parseAnalysisResponse`'s `try` block: trim the
content and, when it starts with "```", strip the leading fence
(optionally tagged `json`) and the trailing fence. Shared verbatim by the
source model and the spec-side cascade below. -/
def cleanedContent (content : String) : List Char :=
  let cleaned := trimList content.toList
  if ['`', '`', '`'].isPrefixOf cleaned then
    stripTrailingFence (stripLeadingFence cleaned)
  else cleaned

/-- `LLMProviderBase.parseAnalysisResponse` (providers.ts lines 919-933),
with the `try`/`catch` control flow made explicit:

* trim the content; when it starts with "```", strip the leading fence
  (optionally tagged `json`) and the trailing fence (`cleanedContent`);
* `JSON.parse` the cleaned text; on success return the parse;
* on failure run `extractJsonObject` on the **original** content; when it
  yields a truthy (non-null, nonempty) string, try to parse that,
  swallowing a second failure;
* in every remaining case return the empty analysis object `\x7b\x7d`.

The function is total: no input makes it throw. -/
def parseAnalysisResponse {α : Type} (jsonParse : String → Option α)
    (emptyAnalysis : α) (content : String) : α :=
  match jsonParse (String.mk (cleanedContent content)) with
  | some parsed => parsed
  | none =>
    match extractJsonObjectChars content.toList with
    | some extracted =>
      if extracted.isEmpty then emptyAnalysis
      else
        match jsonParse (String.mk extracted) with
        | some parsed => parsed
        | none => emptyAnalysis
    | none => emptyAnalysis

/-- The normalization algorithm as the specification words it (§4.2,
steps 1-5): trim the payload; if it begins with a markdown code-fence
marker, strip the leading fence (optionally tagged `json`) and the
trailing fence; attempt strict parsing; on failure parse the
first-`\x7b`-to-last-`\x7d` substring of the original text; if both
attempts fail, return the empty analysis object.  Stated as one `Option`
cascade, for comparison with the source's `try`/`catch` shape. -/
def normalizerSpec {α : Type} (jsonParse : String → Option α)
    (emptyAnalysis : α) (payload : String) : α :=
  ((jsonParse (String.mk (cleanedContent payload))).or
    ((extractJsonObject payload).bind jsonParse)).getD emptyAnalysis

/-- A stand-in for `JSON.parse` in concrete runs: recognizes exactly one
well-formed payload. -/
def toyJsonParse : String → Option Nat := fun s =>
  if s = "\x7b\"a\":1\x7d" then some 1 else none

example : parseAnalysisResponse toyJsonParse 0 "```json\n\x7b\"a\":1\x7d\n```" = 1 := by
  decide

example : parseAnalysisResponse toyJsonParse 0 "prose \x7b\"a\":1\x7d prose" = 1 := by
  decide

example : parseAnalysisResponse toyJsonParse 0 "not json at all" = 0 := by decide

example : parseAnalysisResponse toyJsonParse 0 "\x7d oops \x7b" = 0 := by decide

/-- C5. For every parse oracle that (like `JSON.parse`) rejects the empty
string, and every payload, `parseAnalysisResponse` computes exactly the
spec's cascade: trim, strip a leading "```"/"```json" fence and the
trailing fence, strictly parse; on failure parse the
first-to-last-bracket substring of the original text; if both attempts
fail, return the empty analysis object — and it never throws (it is a
total function into the analysis type). -/
theorem parseAnalysisResponse_never_throws_matches_spec {α : Type}
    (jsonParse : String → Option α) (emptyAnalysis : α)
    (hempty : jsonParse "" = none) :
    ∀ content, parseAnalysisResponse jsonParse emptyAnalysis content =
      normalizerSpec jsonParse emptyAnalysis content := by
  have hsome_or : ∀ (a : α) (x : Option α), (some a).or x = some a :=
    fun a x => rfl
  have hnone_or : ∀ (x : Option α), Option.or none x = x := fun x => rfl
  intro content
  unfold parseAnalysisResponse normalizerSpec extractJsonObject
  cases h1 : jsonParse (String.mk (cleanedContent content)) with
  | some parsed => rw [hsome_or, Option.getD_some]
  | none =>
    rw [hnone_or]
    cases h2 : extractJsonObjectChars content.toList with
    | none => rw [Option.map_none', Option.none_bind, Option.getD_none]
    | some extracted =>
      rw [Option.map_some', Option.some_bind]
      dsimp only
      cases hemp : extracted.isEmpty with
      | true =>
        have hnil : extracted = [] := List.isEmpty_iff.mp hemp
        subst hnil
        have hmk : String.mk [] = "" := rfl
        rw [if_pos rfl, hmk, hempty, Option.getD_none]
      | false =>
        rw [if_neg (by simp [hemp])]
        cases h3 : jsonParse (String.mk extracted) with
        | some parsed => rw [Option.getD_some]
        | none => rw [Option.getD_none]

theorem parseAnalysisResponse_never_throws_matches_spec_witness :
    parseAnalysisResponse toyJsonParse 0 "```json\n\x7b\"a\":1\x7d\n```" =
      normalizerSpec toyJsonParse 0 "```json\n\x7b\"a\":1\x7d\n```" :=
  parseAnalysisResponse_never_throws_matches_spec toyJsonParse 0 (by decide)
    "```json\n\x7b\"a\":1\x7d\n```"

end Normalizer

section CancellationTimeout

/-!
`LLMProviderBase.fetchWithTimeout` (providers.ts lines 880-917) races one
`fetch` against a timer and the caller's `AbortSignal`:

```ts
const controller = new AbortController()
const timeoutId = setTimeout(() => controller.abort(), timeout)
const handleAbort = () => controller.abort()
if (externalSignal) { ... externalSignal.addEventListener('abort', handleAbort ...) }
const response = await fetch(url, { ...options, signal: controller.signal })
```

Both the timer callback and the external-abort listener call
`controller.abort()` on the same controller with no reason, and `fetch`
then rejects with the same `DOMException` named "AbortError", which the
`catch` block rethrows unchanged.  The model takes as input which event
settles the race first and returns what `fetchWithTimeout`'s promise
settles to.
-/

/-- Which event settles `fetchWithTimeout`'s race first: the `setTimeout`
timer, the caller's `AbortSignal`, or the HTTP response itself. -/
inductive FetchRace where
  | timeoutFired
  | callerAborted
  | resolved (ok : Bool) (status : Nat)
deriving DecidableEq, Repr

/-- What the `fetchWithTimeout` promise settles to. -/
inductive FetchSettled where
  | response (ok : Bool) (status : Nat)
  | abortError
deriving DecidableEq, Repr

/-- `fetchWithTimeout`'s settling behaviour: a timer expiry and a caller
abort both run `controller.abort()` on the same controller, so `fetch`
rejects with the same `DOMException` "AbortError" in both cases, rethrown
unchanged by the `catch`; a resolved response is returned as is. -/
def fetchWithTimeout (race : FetchRace) : FetchSettled :=
  match race with
  | .timeoutFired => .abortError
  | .callerAborted => .abortError
  | .resolved ok status => .response ok status

/-- What `handleTranslate`'s `catch` (TranslationInterface.tsx lines
212-215) shows the user for a thrown error: an error named "AbortError"
(a `DOMException`) returns silently; anything else raises the 翻訳エラー
toast with the error's message. -/
inductive UIOutcome where
  | silent
  | errorToast (message : String)
deriving DecidableEq, Repr

/-- `if (error instanceof DOMException && error.name === 'AbortError')
return` — otherwise `toast.error('翻訳エラー', { description: ... })`. -/
def handleTranslateCatch (error : ThrownError) : UIOutcome :=
  if error.name = "AbortError" then .silent else .errorToast error.message

/-- C6, counterexample. The claim says a run that times out and a run the
caller cancels surface distinct outcomes ("request timed out" versus a
clean abort); in the code both runs settle as the very same
`AbortError`. -/
theorem timeout_and_cancel_settle_identically :
    fetchWithTimeout .timeoutFired = fetchWithTimeout .callerAborted ∧
    fetchWithTimeout .timeoutFired = .abortError := by
  exact ⟨rfl, rfl⟩

/-- C6, amended. A client-side timeout settles exactly like a
caller-initiated cancellation: both abort the shared controller and
surface as the same `AbortError` outcome — no named "request timed out"
error exists — and `handleTranslate` suppresses either one silently,
since it only inspects the error's name. -/
theorem timeout_indistinguishable_from_cancel :
    fetchWithTimeout .timeoutFired = .abortError ∧
    fetchWithTimeout .callerAborted = .abortError ∧
    ∀ message,
      handleTranslateCatch ⟨"AbortError", message, none⟩ = .silent := by
  refine ⟨rfl, rfl, fun message => ?_⟩
  simp [handleTranslateCatch]

end CancellationTimeout

section Adapters

/-!
The vendor adapters of `src/lib/llm/providers.ts`.  Each provider's
`callApi` (or `callGemini`) builds one outbound HTTP POST; the model maps
configuration and arguments to the request value it constructs — URL,
headers, query parameters, body fields, and the timeout handed to
`fetchWithTimeout`.  Temperatures are exact rationals (`0.3` and `0.7`
are the source's literals).
-/

/-- `LLMConfig` (providers.ts lines 696-701). -/
structure LLMConfig where
  apiKey : String
  model : Option String
  customEndpoint : Option String
  temperature : Option ℚ
deriving DecidableEq, Repr

/-- JavaScript `a || b` for an optional string: the default steps in both
for a missing and for an empty (falsy) string — unlike `??`, which only
steps in for a missing one. -/
def jsOrString (v : Option String) (d : String) : String :=
  match v with
  | some s => if s = "" then d else s
  | none => d

/-- `const API_TIMEOUT = 60000` (providers.ts line 703), milliseconds. -/
def API_TIMEOUT : Nat := 60000

/-- `DEFAULT_HEADERS` (providers.ts lines 705-707). -/
def DEFAULT_HEADERS : List (String × String) :=
  [("Content-Type", "application/json")]

/-- `LANGUAGE_LABELS` (providers.ts lines 709-716). -/
def LANGUAGE_LABELS : List (String × String) :=
  [("japanese", "Japanese"), ("english", "English"), ("russian", "Russian"),
    ("chinese", "Chinese"), ("korean", "Korean"), ("spanish", "Spanish")]

/-- `formatLanguageLabel` (providers.ts lines 718-720):
`LANGUAGE_LABELS[language] ?? language`. -/
def formatLanguageLabel (language : String) : String :=
  (LANGUAGE_LABELS.lookup language).getD language

/-- The `type` argument of `analyzeSpecific`. -/
inductive AnalysisType where
  | vocabulary | grammar | nuance
deriving DecidableEq, Repr

/-- One `{role, content}` entry of an OpenAI-style `messages` array. -/
structure ChatMessage where
  role : String
  content : String
deriving DecidableEq, Repr

namespace LLMProviderBase

/-- `generateTranslationPrompt` (providers.ts lines 797-809). -/
def generateTranslationPrompt (sourceLanguage targetLanguage : String) :
    String :=
  let fromLabel := formatLanguageLabel sourceLanguage
  let toLabel := formatLanguageLabel targetLanguage
  "You are an expert professional translator. Translate the user's text from "
    ++ fromLabel ++ " to " ++ toLabel ++ ".\n    \nRules:\n"
    ++ "1. Preserve the original tone, style, and formatting (line breaks).\n"
    ++ "2. Do not add any introductory or concluding remarks. Output ONLY the translation.\n"
    ++ "3. Ensure natural, native-level phrasing in " ++ toLabel ++ "."

/-- `generateSpecificAnalysisPrompt` (providers.ts lines 811-869): the
per-type instruction and JSON-schema text, wrapped in the strict-JSON
framing.  Literal braces of the source's template strings are written
with their escapes. -/
def generateSpecificAnalysisPrompt
    (sourceLanguage targetLanguage explanationLanguage : String)
    (type : AnalysisType) : String :=
  let fromLabel := formatLanguageLabel sourceLanguage
  let toLabel := formatLanguageLabel targetLanguage
  let explanationLang := formatLanguageLabel explanationLanguage
  let instruction :=
    match type with
    | .vocabulary =>
      "Extract 10-20 key lexical items (nouns, verbs in base form, adjectives, or fixed idioms) strictly from the source text.\n"
        ++ "      Rules for 'words' array:\n"
        ++ "      - 'original': The exact word or idiom from the source text. Do NOT include surrounding context, particles, or punctuation.\n"
        ++ "      - 'translated': The most accurate direct translation of the 'original' word into "
        ++ toLabel ++ ". \n"
        ++ "      - 'meaning': A brief explanation in " ++ explanationLang
        ++ " of how this word is being used in this specific context.\n"
        ++ "      Ensure the list is clean and contains no duplicates or full phrases."
    | .grammar =>
      "Provide an essential linguistic and syntactic analysis of the text.\n"
        ++ "      1. 'structure_diagram': A clear syntactic map showing how the source sentence is logically constructed (e.g., S-V-O mapping or head-initial/final structure).\n"
        ++ "      2. 'key_points': Analyze actual grammatical rules. Quote the **"
        ++ fromLabel
        ++ " (Source Text)** in 'segment'. Explain its linguistic role (e.g., tense, case marking, clause subordination, or part-of-speech function) and how that logic is mapped into "
        ++ explanationLang
        ++ ". Do not explain your translation choices; explain the grammar of the languages.\n"
        ++ "      3. 'politeness_level': Define the specific socio-linguistic register (e.g., honorary, humble, peer-to-peer, professional).\n"
        ++ "      Provide all explanations in " ++ explanationLang ++ "."
    | .nuance =>
      "Perform a high-fidelity contextual and emotional decoding.\n"
        ++ "      1. 'tone': Identify the specific emotional frequency and speaker's intent within the context of the situation described in the text.\n"
        ++ "      2. 'cultural_context': Decode the setting and situational norms of the **SOURCE text**. Focus on the world of the original author.\n"
        ++ "      3. 'better_choices': Suggest 1-2 refinements that better capture the original's 'soul'. Quote the 'original_segment' and explain the precise atmospheric difference in 'reason'.\n"
        ++ "      Provide all explanations in " ++ explanationLang ++ "."
  let jsonStructure :=
    match type with
    | .vocabulary =>
      "\"words\": [ \x7b \"original\": \"isolated_source_word\", \"translated\": \"direct_translation\", \"meaning\": \"contextual explanation in "
        ++ explanationLang ++ "\" \x7d ]"
    | .grammar =>
      "\"detailedExplanation\": \x7b\n"
        ++ "        \"structure_diagram\": \"logical syntax map\",\n"
        ++ "        \"key_points\": [ \x7b \"point\": \"grammatical concept\", \"segment\": \"quote from source\", \"explanation\": \"linguistic rule explanation in "
        ++ explanationLang ++ "\" \x7d ],\n"
        ++ "        \"politeness_level\": \"register description in "
        ++ explanationLang ++ "\"\n      \x7d"
    | .nuance =>
      "\"nuanceExplanation\": \x7b\n"
        ++ "        \"tone\": \"contextual intent analysis in "
        ++ explanationLang ++ "\",\n"
        ++ "        \"cultural_context\": \"situational decoding based on source setting in "
        ++ explanationLang ++ "\",\n"
        ++ "        \"better_choices\": [ \x7b \"phrase\": \"refined alternative\", \"original_segment\": \"part of current result\", \"reason\": \"why this fits the specific situation better in "
        ++ explanationLang ++ "\" \x7d ]\n      \x7d"
  "You are a linguistic expert. Analyze the translation from " ++ fromLabel
    ++ " to " ++ toLabel ++ ".\n    \nTask: " ++ instruction
    ++ "\n\nProvide the output in strict JSON format:\n\x7b\n  "
    ++ jsonStructure ++ "\n\x7d\n\nReturn ONLY valid JSON."

/-- `generateAnalysisPrompt` (providers.ts lines 871-878). -/
def generateAnalysisPrompt (sourceLanguage targetLanguage : String) : String :=
  let fromLabel := formatLanguageLabel sourceLanguage
  let toLabel := formatLanguageLabel targetLanguage
  "Analyze the translation from " ++ fromLabel ++ " to " ++ toLabel
    ++ ". Provide words, detailedExplanation, and nuanceExplanation in JSON."

end LLMProviderBase

/-- The outbound HTTP POST an OpenAI-compatible provider's `callApi`
builds: `fetchWithTimeout(url, { method: 'POST', headers, body },
API_TIMEOUT, signal)` with body `{model, messages, temperature,
response_format?}`.  `response_format` holds the JSON-mode type when
present. -/
structure OpenAIStyleRequest where
  url : String
  headers : List (String × String)
  model : String
  messages : List ChatMessage
  temperature : ℚ
  response_format : Option String
  timeout : Nat
deriving DecidableEq, Repr

namespace GroqProvider

/-- `private endpoint` of `GroqProvider` (providers.ts line 955). -/
def endpoint : String := "https://api.groq.com/openai/v1/chat/completions"

/-- `GroqProvider.callApi` (providers.ts lines 980-992) as the request it
constructs: `this.config.customEndpoint || this.endpoint`, bearer-token
auth header over `DEFAULT_HEADERS`, body temperature
`this.config.temperature ?? 0.3`, JSON mode via
`response_format: { type: 'json_object' }`, and the fixed `API_TIMEOUT`
passed to `fetchWithTimeout`. -/
def callApiRequest (config : LLMConfig) (model : String)
    (messages : List ChatMessage) (jsonMode : Bool) : OpenAIStyleRequest :=
  { url := jsOrString config.customEndpoint endpoint
    headers := DEFAULT_HEADERS ++ [("Authorization", "Bearer " ++ config.apiKey)]
    model := model
    messages := messages
    temperature := config.temperature.getD (3 / 10)
    response_format := if jsonMode then some "json_object" else none
    timeout := API_TIMEOUT }

/-- `GroqProvider.translateText` (lines 957-962): default model
`llama-3.3-70b-versatile` (`this.config.model || …`), system prompt from
`generateTranslationPrompt`, user message the raw text, JSON mode off. -/
def translateTextRequest (config : LLMConfig)
    (text source target : String) : OpenAIStyleRequest :=
  callApiRequest config (jsOrString config.model "llama-3.3-70b-versatile")
    [⟨"system", LLMProviderBase.generateTranslationPrompt source target⟩,
      ⟨"user", text⟩] false

/-- `GroqProvider.analyzeSpecific` (lines 964-970): JSON mode on, user
message `Source:\n…\n\nTranslation:\n…`. -/
def analyzeSpecificRequest (config : LLMConfig)
    (sourceText translatedText source target explanationLanguage : String)
    (type : AnalysisType) : OpenAIStyleRequest :=
  callApiRequest config (jsOrString config.model "llama-3.3-70b-versatile")
    [⟨"system", LLMProviderBase.generateSpecificAnalysisPrompt source target
        explanationLanguage type⟩,
      ⟨"user", "Source:\n" ++ sourceText ++ "\n\nTranslation:\n"
        ++ translatedText⟩] true

/-- `GroqProvider.analyzeTranslation` (lines 972-978). -/
def analyzeTranslationRequest (config : LLMConfig)
    (sourceText translatedText source target : String) : OpenAIStyleRequest :=
  callApiRequest config (jsOrString config.model "llama-3.3-70b-versatile")
    [⟨"system", LLMProviderBase.generateAnalysisPrompt source target⟩,
      ⟨"user", "Source:\n" ++ sourceText ++ "\n\nTranslation:\n"
        ++ translatedText⟩] true

end GroqProvider

namespace CerebrasProvider

/-- `private endpoint` of `CerebrasProvider` (providers.ts line 1040). -/
def endpoint : String := "https://api.cerebras.ai/v1/chat/completions"

/-- `CerebrasProvider.callApi` (providers.ts lines 1061-1073): same shape
as Groq's, against the Cerebras endpoint. -/
def callApiRequest (config : LLMConfig) (model : String)
    (messages : List ChatMessage) (jsonMode : Bool) : OpenAIStyleRequest :=
  { url := jsOrString config.customEndpoint endpoint
    headers := DEFAULT_HEADERS ++ [("Authorization", "Bearer " ++ config.apiKey)]
    model := model
    messages := messages
    temperature := config.temperature.getD (3 / 10)
    response_format := if jsonMode then some "json_object" else none
    timeout := API_TIMEOUT }

end CerebrasProvider

namespace OpenAIProvider

/-- `private endpoint` of `OpenAIProvider` (providers.ts line 1077). -/
def endpoint : String := "https://api.openai.com/v1/chat/completions"

/-- `OpenAIProvider.callApi` (providers.ts lines 1098-1110). -/
def callApiRequest (config : LLMConfig) (model : String)
    (messages : List ChatMessage) (jsonMode : Bool) : OpenAIStyleRequest :=
  { url := jsOrString config.customEndpoint endpoint
    headers := DEFAULT_HEADERS ++ [("Authorization", "Bearer " ++ config.apiKey)]
    model := model
    messages := messages
    temperature := config.temperature.getD (3 / 10)
    response_format := if jsonMode then some "json_object" else none
    timeout := API_TIMEOUT }

end OpenAIProvider

namespace GrokProvider

/-- `private endpoint` of `GrokProvider` (providers.ts line 1114). -/
def endpoint : String := "https://api.x.ai/v1/chat/completions"

/-- `GrokProvider.callApi` (providers.ts lines 1135-1145): the body is
built imperatively (`if (jsonMode) body.response_format = …`), with the
same resulting request shape. -/
def callApiRequest (config : LLMConfig) (model : String)
    (messages : List ChatMessage) (jsonMode : Bool) : OpenAIStyleRequest :=
  { url := jsOrString config.customEndpoint endpoint
    headers := DEFAULT_HEADERS ++ [("Authorization", "Bearer " ++ config.apiKey)]
    model := model
    messages := messages
    temperature := config.temperature.getD (3 / 10)
    response_format := if jsonMode then some "json_object" else none
    timeout := API_TIMEOUT }

end GrokProvider

/-- One `{ text }` part of a Gemini request. -/
structure GeminiPart where
  text : String
deriving DecidableEq, Repr

/-- A `{ parts: [...] }` object of a Gemini request: used both for the
conversation `contents` entries and for `system_instruction`. -/
structure GeminiContent where
  parts : List GeminiPart
deriving DecidableEq, Repr

/-- Gemini's `generationConfig` body field. -/
structure GeminiGenerationConfig where
  temperature : ℚ
  responseMimeType : String
deriving DecidableEq, Repr

/-- The outbound HTTP POST `GeminiProvider.callGemini` builds: the
endpoint URL, its query-string parameters (`url.searchParams.set('key',
this.config.apiKey)`), plain `DEFAULT_HEADERS` (no Authorization
header), and the body `{contents, system_instruction,
generationConfig}`. -/
structure GeminiRequest where
  endpoint : String
  query : List (String × String)
  headers : List (String × String)
  contents : List GeminiContent
  system_instruction : GeminiContent
  generationConfig : GeminiGenerationConfig
  timeout : Nat
deriving DecidableEq, Repr

namespace GeminiProvider

/-- The default Gemini endpoint for a model
(`https://generativelanguage.googleapis.com/v1beta/models/{model}:generateContent`). -/
def defaultEndpoint (model : String) : String :=
  "https://generativelanguage.googleapis.com/v1beta/models/" ++ model
    ++ ":generateContent"

/-- `GeminiProvider.callGemini` (providers.ts lines 1018-1036) as the
request it constructs: custom endpoint `||` the model's default, the API
key as the `key` query parameter, no auth header, the user text as the
single conversation content, the system prompt as the structured
`system_instruction: { parts: [{ text }] }` field, temperature
`this.config.temperature ?? 0.3`, and the JSON-mode switch through
`generationConfig.responseMimeType`. -/
def callGeminiRequest (config : LLMConfig) (model systemPrompt userText : String)
    (jsonMode : Bool) : GeminiRequest :=
  { endpoint := jsOrString config.customEndpoint (defaultEndpoint model)
    query := [("key", config.apiKey)]
    headers := DEFAULT_HEADERS
    contents := [⟨[⟨userText⟩]⟩]
    system_instruction := ⟨[⟨systemPrompt⟩]⟩
    generationConfig :=
      ⟨config.temperature.getD (3 / 10),
        if jsonMode then "application/json" else "text/plain"⟩
    timeout := API_TIMEOUT }

/-- `GeminiProvider.translateText` (lines 996-1000): default model
`gemini-2.5-flash`, translation system prompt, JSON mode off. -/
def translateTextRequest (config : LLMConfig)
    (text source target : String) : GeminiRequest :=
  callGeminiRequest config (jsOrString config.model "gemini-2.5-flash")
    (LLMProviderBase.generateTranslationPrompt source target) text false

/-- `GeminiProvider.analyzeSpecific` (lines 1002-1008): JSON mode on, user
text `Source:\n…\n\nTarget:\n…`. -/
def analyzeSpecificRequest (config : LLMConfig)
    (sourceText translatedText source target explanationLanguage : String)
    (type : AnalysisType) : GeminiRequest :=
  callGeminiRequest config (jsOrString config.model "gemini-2.5-flash")
    (LLMProviderBase.generateSpecificAnalysisPrompt source target
      explanationLanguage type)
    ("Source:\n" ++ sourceText ++ "\n\nTarget:\n" ++ translatedText) true

/-- `GeminiProvider.analyzeTranslation` (lines 1010-1016). -/
def analyzeTranslationRequest (config : LLMConfig)
    (sourceText translatedText source target : String) : GeminiRequest :=
  callGeminiRequest config (jsOrString config.model "gemini-2.5-flash")
    (LLMProviderBase.generateAnalysisPrompt source target)
    ("Source:\n" ++ sourceText ++ "\n\nTarget:\n" ++ translatedText) true

end GeminiProvider

end Adapters

section AdapterClaims

/-- `defaultSettings` of `src/store/settingsStore.ts` (lines 50-62):
languages as their string identifiers, all API keys empty, no model or
endpoint override, temperature 0.7, all three analysis flags on, output
format `full`. -/
structure TranslationSettings where
  sourceLanguage : String
  targetLanguage : String
  provider : LLMProvider
  apiKeys : LLMProvider → String
  customEndpoint : Option String
  model : Option String
  temperature : Option ℚ
  showWordList : Bool
  showDetailedExplanation : Bool
  showNuanceExplanation : Bool
  outputFormat : String

/-- `defaultSettings` (settingsStore.ts lines 50-62). -/
def defaultSettings : TranslationSettings :=
  { sourceLanguage := "japanese"
    targetLanguage := "english"
    provider := .groq
    apiKeys := fun _ => ""
    customEndpoint := none
    model := none
    temperature := some (7 / 10)
    showWordList := true
    showDetailedExplanation := true
    showNuanceExplanation := true
    outputFormat := "full" }

/-- A configuration with no temperature and no overrides, as the claims'
concrete input. -/
def configNoTemperature : LLMConfig :=
  { apiKey := "k", model := none, customEndpoint := none, temperature := none }

/-- C7, counterexample. The claim says the timeout passed for
translateText-driven requests is strictly shorter than the 60-second one
for analysis-driven requests; in the code both are the same
`API_TIMEOUT` of 60000 ms, so at this concrete pair of requests the
strict inequality fails. -/
theorem translate_timeout_not_shorter_than_analysis :
    (GroqProvider.translateTextRequest configNoTemperature "こんにちは"
      "japanese" "english").timeout = 60000 ∧
    ¬ ((GroqProvider.translateTextRequest configNoTemperature "こんにちは"
        "japanese" "english").timeout <
      (GroqProvider.analyzeSpecificRequest configNoTemperature "こんにちは"
        "Hello" "japanese" "english" "english" .vocabulary).timeout) := by
  constructor
  · rfl
  · intro h
    simp [GroqProvider.translateTextRequest, GroqProvider.analyzeSpecificRequest,
      GroqProvider.callApiRequest, API_TIMEOUT] at h

/-- C7, amended. Every outbound adapter call — translation and analysis
alike, for all five providers — races against the same fixed per-call
timeout `API_TIMEOUT` of 60000 ms: the source passes one constant to
`fetchWithTimeout` regardless of operation, rather than a shorter one for
pure translation. -/
theorem all_calls_use_fixed_60s_timeout (config : LLMConfig) (model : String)
    (messages : List ChatMessage) (jsonMode : Bool)
    (systemPrompt userText : String) :
    (GroqProvider.callApiRequest config model messages jsonMode).timeout
      = API_TIMEOUT ∧
    (CerebrasProvider.callApiRequest config model messages jsonMode).timeout
      = API_TIMEOUT ∧
    (OpenAIProvider.callApiRequest config model messages jsonMode).timeout
      = API_TIMEOUT ∧
    (GrokProvider.callApiRequest config model messages jsonMode).timeout
      = API_TIMEOUT ∧
    (GeminiProvider.callGeminiRequest config model systemPrompt userText
      jsonMode).timeout = API_TIMEOUT ∧
    API_TIMEOUT = 60000 :=
  ⟨rfl, rfl, rfl, rfl, rfl, rfl⟩

/-- C8, counterexample. The claim says an omitted temperature makes the
request body carry the default 0.7; in the code the adapters fall back to
`this.config.temperature ?? 0.3`, so a configuration without a
temperature sends 0.3, not 0.7. -/
theorem omitted_temperature_sends_0_3_not_0_7 :
    (GroqProvider.callApiRequest configNoTemperature "m" [] false).temperature
      = 3 / 10 ∧
    ¬ ((GroqProvider.callApiRequest configNoTemperature "m" []
        false).temperature = 7 / 10) := by
  constructor
  · rfl
  · intro h
    have : (3 / 10 : ℚ) = 7 / 10 := h
    norm_num at this

/-- C8, amended. When the caller-supplied configuration omits
temperature, every adapter sends the adapters' own fallback 0.3 in the
request body — not 0.7; the 0.7 default lives in the settings store's
`defaultSettings.temperature`, which callers pass explicitly. -/
theorem omitted_temperature_defaults_to_0_3 (config : LLMConfig)
    (model : String) (messages : List ChatMessage) (jsonMode : Bool)
    (systemPrompt userText : String)
    (homit : config.temperature = none) :
    (GroqProvider.callApiRequest config model messages jsonMode).temperature
      = 3 / 10 ∧
    (CerebrasProvider.callApiRequest config model messages jsonMode).temperature
      = 3 / 10 ∧
    (OpenAIProvider.callApiRequest config model messages jsonMode).temperature
      = 3 / 10 ∧
    (GrokProvider.callApiRequest config model messages jsonMode).temperature
      = 3 / 10 ∧
    (GeminiProvider.callGeminiRequest config model systemPrompt userText
      jsonMode).generationConfig.temperature = 3 / 10 ∧
    defaultSettings.temperature = some (7 / 10) := by
  refine ⟨?_, ?_, ?_, ?_, ?_, rfl⟩ <;>
    simp [GroqProvider.callApiRequest, CerebrasProvider.callApiRequest,
      OpenAIProvider.callApiRequest, GrokProvider.callApiRequest,
      GeminiProvider.callGeminiRequest, homit]

theorem omitted_temperature_defaults_to_0_3_witness :
    (GroqProvider.callApiRequest configNoTemperature "m" [] false).temperature
      = 3 / 10 ∧
    (CerebrasProvider.callApiRequest configNoTemperature "m" []
      false).temperature = 3 / 10 ∧
    (OpenAIProvider.callApiRequest configNoTemperature "m" []
      false).temperature = 3 / 10 ∧
    (GrokProvider.callApiRequest configNoTemperature "m" []
      false).temperature = 3 / 10 ∧
    (GeminiProvider.callGeminiRequest configNoTemperature "m" "s" "u"
      false).generationConfig.temperature = 3 / 10 ∧
    defaultSettings.temperature = some (7 / 10) :=
  omitted_temperature_defaults_to_0_3 configNoTemperature "m" [] false
    "s" "u" rfl

/-- C9. Every Gemini call — `translateText` and the analysis operations
all funnel through `callGemini` — supplies the system instruction as the
distinct structured field `system_instruction: { parts: [{ text:
systemPrompt }] }` rather than inlining it into the conversation (whose
`contents` hold exactly the user text), and authenticates with the API
key as the `key` query-string parameter, with no Authorization header. -/
theorem gemini_structured_system_instruction_and_query_key
    (config : LLMConfig) (model systemPrompt userText : String)
    (jsonMode : Bool) :
    (GeminiProvider.callGeminiRequest config model systemPrompt userText
      jsonMode).system_instruction = ⟨[⟨systemPrompt⟩]⟩ ∧
    (GeminiProvider.callGeminiRequest config model systemPrompt userText
      jsonMode).contents = [⟨[⟨userText⟩]⟩] ∧
    (GeminiProvider.callGeminiRequest config model systemPrompt userText
      jsonMode).query = [("key", config.apiKey)] ∧
    ∀ v, ("Authorization", v) ∉ (GeminiProvider.callGeminiRequest config
      model systemPrompt userText jsonMode).headers := by
  refine ⟨rfl, rfl, rfl, fun v hv => ?_⟩
  simp only [GeminiProvider.callGeminiRequest, DEFAULT_HEADERS,
    List.mem_singleton, Prod.mk.injEq] at hv
  have : "Authorization" = "Content-Type" := hv.1
  simp at this

end AdapterClaims

section TranslateWrapper

/-- One entry of `LLMResponse.words` (providers.ts lines 645-649). -/
structure Word where
  original : String
  translated : String
  meaning : Option String
deriving DecidableEq, Repr

/-- One entry of `detailedExplanation.key_points` (lines 652-656). -/
structure KeyPoint where
  point : String
  segment : String
  explanation : String
deriving DecidableEq, Repr

/-- `LLMResponse.detailedExplanation` (lines 650-658). -/
structure DetailedExplanation where
  structure_diagram : Option String
  key_points : Option (List KeyPoint)
  politeness_level : Option String
deriving DecidableEq, Repr

/-- One entry of `nuanceExplanation.better_choices` (lines 662-666). -/
structure BetterChoice where
  phrase : String
  original_segment : String
  reason : String
deriving DecidableEq, Repr

/-- `LLMResponse.nuanceExplanation` (lines 659-667). -/
structure NuanceExplanation where
  tone : Option String
  cultural_context : Option String
  better_choices : Option (List BetterChoice)
deriving DecidableEq, Repr

/-- `LLMResponse` (providers.ts lines 643-668): the translation plus the
three optional analysis payloads. -/
structure LLMResponse where
  translation : String
  words : Option (List Word)
  detailedExplanation : Option DetailedExplanation
  nuanceExplanation : Option NuanceExplanation
deriving DecidableEq, Repr

namespace LLMProviderBase

/-- The legacy compatibility wrapper `LLMProviderBase.translate`
(providers.ts lines 784-795): it awaits `translateText` (whose settled
outcome is the `Except` argument — an exception propagates) and wraps a
successful string as `{ translation }`, ignoring the three flags. -/
def translate (translateTextOutcome : Except ThrownError String)
    (showWordList showDetailedExplanation showNuanceExplanation : Bool) :
    Except ThrownError LLMResponse :=
  match translateTextOutcome with
  | .error e => .error e
  | .ok translation =>
    .ok { translation := translation
          words := none
          detailedExplanation := none
          nuanceExplanation := none }

end LLMProviderBase

/-- C10. For every translated text and every combination of the three
flags, the base-class simple `translate` wrapper returns only the
translation produced by `translateText`: the `words`,
`detailedExplanation` and `nuanceExplanation` fields are absent, and the
flags have no effect on the result at all (any two flag combinations
yield the same value on every outcome). -/
theorem translate_wrapper_ignores_flags (translation : String)
    (f1 f2 f3 g1 g2 g3 : Bool) (outcome : Except ThrownError String) :
    LLMProviderBase.translate (.ok translation) f1 f2 f3 =
      .ok { translation := translation, words := none,
            detailedExplanation := none, nuanceExplanation := none } ∧
    LLMProviderBase.translate outcome f1 f2 f3 =
      LLMProviderBase.translate outcome g1 g2 g3 :=
  ⟨rfl, rfl⟩

end TranslateWrapper
